import Mathlib

/-!
Verification development for the minecraft-server-manager repository.

The Go sources are shallowly embedded below. Shared mutable maps
(common.ServerStatuses, common.BackupStatuses) become association lists,
and collaborator I/O (screen sessions, the player-count query, the file
system) is passed in as explicit inputs. Side effects other than the two
status maps (launching sessions, sending lines, persisting the status
files, archiving, uploads) are recorded as an explicit effect trace.
Go runtime panics (nil-pointer dereference on a missing map entry,
index-out-of-range) are modelled by returning none.
-/

namespace MSM

/-- ServerStatus mirrors the Go struct common.ServerStatus: per-server
name, operator intent, assigned port, start time and the in-flight
crash-recovery marker. Timestamps are seconds as Nat; the Go zero time
is 0. -/
structure ServerStatus where
  name : String
  shouldRun : Bool
  port : Int
  startTime : Nat
  recovering : Bool
deriving DecidableEq

/-- The common.ServerStatuses map, as an association list keyed by server
name. -/
abbrev ServerMap := List (String × ServerStatus)

/-- The common.BackupStatuses map (server name to the enabled flag). -/
abbrev BackupMap := List (String × Bool)

/-- Map read on common.ServerStatuses: first binding of the key wins. -/
def lookupSrv : ServerMap → String → Option ServerStatus
  | [], _ => none
  | (k, v) :: rest, s => if s = k then some v else lookupSrv rest s

/-- In-place update of every binding of a key, mirroring a Go write
through the stored pointer. -/
def setSrvList (m : ServerMap) (k : String) (f : ServerStatus → ServerStatus) : ServerMap :=
  m.map fun p => if p.1 = k then (p.1, f p.2) else p

/-- Go statement of shape ServerStatuses[k].Field = v: dereferencing the
pointer stored for k. A missing key is a nil-map read followed by a nil
dereference, hence a panic, modelled as none. -/
def setSrv (m : ServerMap) (k : String) (f : ServerStatus → ServerStatus) : Option ServerMap :=
  match lookupSrv m k with
  | none => none
  | some _ => some (setSrvList m k f)

/-- Map read on common.BackupStatuses. -/
def lookupBkp : BackupMap → String → Option Bool
  | [], _ => none
  | (k, v) :: rest, s => if s = k then some v else lookupBkp rest s

/-- Go map assignment BackupStatuses[k] = b (insert or overwrite; a bool
map assignment never panics). -/
def insertBkp : BackupMap → String → Bool → BackupMap
  | [], k, b => [(k, b)]
  | (k0, b0) :: rest, k, b =>
      if k = k0 then (k, b) :: rest else (k0, b0) :: insertBkp rest k b

/-- The two shared status maps owned by package common. -/
structure SupState where
  servers : ServerMap
  backups : BackupMap
deriving DecidableEq

/-- Side effects of the supervisor and the backup coordinator, in program
order. State changes to the two maps are kept in SupState; everything
else is traced here. -/
inductive Effect where
  /-- screen -d -m ./run.sh for a server (an actual launch). -/
  | launch (server : String)
  /-- writing the assigned port into server.properties. -/
  | setPortFile (server : String) (port : Int)
  /-- sending the natural stop line into the session. -/
  | sendStop (server : String)
  /-- screen -X quit (force-terminate the session). -/
  | killSession (server : String)
  /-- the goroutine that clears the recovering flag after recoveryTime. -/
  | scheduleRecoveryClear (server : String)
  /-- common.UpdateServerStatus (persist the server-status file). -/
  | persistServerStatus
  /-- common.UpdateBackupStatus (persist the backup-status file). -/
  | persistBackupStatus
  /-- in-game /say message to a server. -/
  | notify (server : String) (message : String)
  /-- in-game /save-all sent to a server. -/
  | forceSave (server : String)
  /-- archiving the world directory of a server into the zip file. -/
  | archive (server : String)
  /-- a successful upload of the archive to object storage. -/
  | upload (server : String)
deriving DecidableEq

/-! ## Association-list lemmas -/

theorem setSrvList_cons (k0 : String) (v0 : ServerStatus) (rest : ServerMap) (k : String)
    (f : ServerStatus → ServerStatus) :
    setSrvList ((k0, v0) :: rest) k f =
      (if k0 = k then (k0, f v0) else (k0, v0)) :: setSrvList rest k f := by
  by_cases hk : k0 = k <;> simp [setSrvList, hk]

theorem lookupSrv_setSrvList (m : ServerMap) (k : String) (f : ServerStatus → ServerStatus)
    (s : String) :
    lookupSrv (setSrvList m k f) s =
      if s = k then (lookupSrv m k).map f else lookupSrv m s := by
  induction m with
  | nil => simp [setSrvList, lookupSrv]
  | cons p rest ih =>
    obtain ⟨k0, v0⟩ := p
    rw [setSrvList_cons]
    by_cases hk : k0 = k
    · rw [if_pos hk]
      subst hk
      by_cases hs : s = k0
      · subst hs
        simp [lookupSrv]
      · simp [lookupSrv, hs, ih]
    · rw [if_neg hk]
      by_cases hs : s = k0
      · subst hs
        simp [lookupSrv, hk]
      · simp [lookupSrv, hs, Ne.symm hk, ih]

theorem lookupBkp_insertBkp (m : BackupMap) (k : String) (b : Bool) (s : String) :
    lookupBkp (insertBkp m k b) s = if s = k then some b else lookupBkp m s := by
  induction m with
  | nil => by_cases hs : s = k <;> simp [insertBkp, lookupBkp, hs]
  | cons p rest ih =>
    obtain ⟨k0, b0⟩ := p
    by_cases hk : k = k0
    · subst hk
      by_cases hs : s = k <;> simp [insertBkp, lookupBkp, hs]
    · by_cases hs : s = k0
      · subst hs
        simp [insertBkp, lookupBkp, hk, Ne.symm hk, lookupBkp]
      · simpa [insertBkp, lookupBkp, hk, hs] using ih

/-- insertBkp with value true never produces a false entry that was not
already there. -/
theorem lookupBkp_insertBkp_true_false (m : BackupMap) (k s : String)
    (h : lookupBkp (insertBkp m k true) s = some false) : lookupBkp m s = some false := by
  rw [lookupBkp_insertBkp] at h
  by_cases hs : s = k
  · simp [hs] at h
  · simpa [hs] using h

/-! ## Port allocation (src server.go determinePort, part_010 lines 136-162) -/

/-- killServerTimeout from the Go constants (seconds). -/
def killServerTimeout : Nat := 15

/-- baseServerPort from the Go constants. -/
def baseServerPort : Int := 25565

/-- recoveryTime from the Go constants (seconds). -/
def recoveryTime : Nat := 30

/-- All port values stored in the server-status map (what the isValid
closure inside determinePort scans). -/
def usedPorts (m : ServerMap) : List Int := m.map fun p => p.2.port

/-- The Go loop: for !isValid(port) do port++. The loop has no bound in
the source; it terminates because only finitely many ports are used, and
fuel of usedPorts.length + 1 is shown sufficient below. -/
def firstFree (used : List Int) : Nat → Int → Int
  | 0, p => p
  | fuel + 1, p => if p ∈ used then firstFree used fuel (p + 1) else p

/-- determinePort: reuse the stored port for a registered server,
otherwise the lowest unused port at or above baseServerPort. The boolean
indicates a newly seen server, as in the source. -/
def determinePort (m : ServerMap) (server : String) : Int × Bool :=
  match lookupSrv m server with
  | some status => (status.port, false)
  | none => (firstFree (usedPorts m) (usedPorts m).length.succ baseServerPort, true)

/-- r is the least port at or above p that is not used. -/
def IsLeastFreeFrom (used : List Int) (p r : Int) : Prop :=
  p ≤ r ∧ r ∉ used ∧ ∀ q : Int, p ≤ q → q < r → q ∈ used

theorem firstFree_spec (used : List Int) :
    ∀ fuel : Nat, ∀ p : Int, (∃ j : Nat, j < fuel ∧ p + j ∉ used) →
      IsLeastFreeFrom used p (firstFree used fuel p) := by
  intro fuel
  induction fuel with
  | zero =>
    intro p h
    obtain ⟨j, hj, _⟩ := h
    exact absurd hj (Nat.not_lt_zero j)
  | succ n ih =>
    intro p h
    by_cases hp : p ∈ used
    · have hrec := ih (p + 1) ?_
      · refine ⟨?_, ?_, ?_⟩
        · rw [firstFree, if_pos hp]
          have := hrec.1
          omega
        · rw [firstFree, if_pos hp]
          exact hrec.2.1
        · intro q hq1 hq2
          rw [firstFree, if_pos hp] at hq2
          rcases eq_or_lt_of_le hq1 with heq | hlt
          · exact heq ▸ hp
          · exact hrec.2.2 q (by omega) hq2
      · obtain ⟨j, hj, hfree⟩ := h
        match j, hfree with
        | 0, hfree => exact absurd hp (by simpa using hfree)
        | j + 1, hfree =>
          exact ⟨j, by omega, by
            have : p + 1 + (j : Int) = p + ((j : Int) + 1) := by ring
            rw [this]; exact_mod_cast hfree⟩
    · rw [firstFree, if_neg hp]
      exact ⟨le_refl p, hp, fun q hq1 hq2 => absurd (lt_of_le_of_lt hq1 hq2) (lt_irrefl p)⟩

/-- Pigeonhole: among usedPorts.length + 1 consecutive candidates at
least one is unused, so the fuel given to firstFree suffices. -/
theorem exists_free_candidate (used : List Int) (p : Int) :
    ∃ j : Nat, j < used.length.succ ∧ p + j ∉ used := by
  by_contra hall
  push_neg at hall
  have hsub : (Finset.range used.length.succ).image (fun j : Nat => p + (j : Int)) ⊆
      used.toFinset := by
    intro x hx
    simp only [Finset.mem_image, Finset.mem_range] at hx
    obtain ⟨j, hj, rfl⟩ := hx
    exact List.mem_toFinset.mpr (hall j hj)
  have hcard : ((Finset.range used.length.succ).image
      (fun j : Nat => p + (j : Int))).card = used.length.succ := by
    rw [Finset.card_image_of_injective _ (fun a b hab => by omega)]
    exact Finset.card_range _
  have hle : used.length.succ ≤ used.toFinset.card := by
    rw [← hcard]; exact Finset.card_le_card hsub
  have := used.toFinset_card_le
  omega

/-- The port determinePort picks for an unregistered server is the least
unused port at or above baseServerPort. -/
theorem determinePort_fresh (m : ServerMap) (server : String)
    (h : lookupSrv m server = none) :
    IsLeastFreeFrom (usedPorts m) baseServerPort (determinePort m server).1 ∧
      (determinePort m server).2 = true := by
  rw [determinePort, h]
  exact ⟨firstFree_spec _ _ _ (exists_free_candidate _ _), rfl⟩

/-- determinePort returns the stored port for a registered server. -/
theorem determinePort_registered (m : ServerMap) (server : String) (v : ServerStatus)
    (h : lookupSrv m server = some v) : determinePort m server = (v.port, false) := by
  rw [determinePort, h]

/-- The port of any entry reachable by lookup is a used port. -/
theorem lookupSrv_port_mem_usedPorts (m : ServerMap) (s : String) (v : ServerStatus)
    (h : lookupSrv m s = some v) : v.port ∈ usedPorts m := by
  induction m with
  | nil => simp [lookupSrv] at h
  | cons p rest ih =>
    obtain ⟨k0, v0⟩ := p
    rw [lookupSrv] at h
    by_cases hs : s = k0
    · rw [if_pos hs] at h
      cases h
      simp [usedPorts]
    · rw [if_neg hs] at h
      simp only [usedPorts, List.map_cons, List.mem_cons]
      exact Or.inr (ih h)

/-- Updating fields that leave the port unchanged does not change the
used-port list. -/
theorem usedPorts_setSrvList (m : ServerMap) (k : String) (f : ServerStatus → ServerStatus)
    (hf : ∀ v, (f v).port = v.port) : usedPorts (setSrvList m k f) = usedPorts m := by
  induction m with
  | nil => rfl
  | cons p rest ih =>
    obtain ⟨k0, v0⟩ := p
    rw [setSrvList_cons]
    by_cases hk : k0 = k
    · rw [if_pos hk]
      show (f v0).port :: usedPorts (setSrvList rest k f) = v0.port :: usedPorts rest
      rw [hf, ih]
    · rw [if_neg hk]
      show v0.port :: usedPorts (setSrvList rest k f) = v0.port :: usedPorts rest
      rw [ih]

/-! ## Supervisor (part_010 server.go)

GetRunningServers is the screen -ls collaborator; its result is passed
in as the running list (in the source it never returns a non-nil error).
setPort (the server.properties rewrite) and the screen launches are
assumed to succeed and are recorded as effects. -/

/-- The per-name loop body of Start (part_010 lines 199-246) followed by
the conditional persist (lines 247-252). Returns the updated state, the
effect trace and the started flag; none is a panic. -/
def startLoop (running : List String) (now : Nat) :
    List String → SupState → Option (SupState × List Effect × Bool)
  | [], st => some (st, [], false)
  | server :: rest, st =>
    if server ∈ running then
      -- already running: skip the launch (a no-op, not an error)
      startLoop running now rest st
    else
      let pd := determinePort st.servers server
      let stepSt : SupState :=
        if pd.2 then
          { st with servers :=
              (server, ⟨server, false, pd.1, 0, false⟩) :: st.servers }
        else st
      let stepEffs : List Effect := if pd.2 then [Effect.setPortFile server pd.1] else []
      match setSrv stepSt.servers server
          (fun s => { s with shouldRun := true, startTime := now }) with
      | none => none
      | some m2 =>
        match startLoop running now rest { stepSt with servers := m2 } with
        | none => none
        | some (st2, effs, _) =>
          some (st2, stepEffs ++ Effect.launch server :: effs, true)

/-- Start (part_010 lines 191-255): skip running servers, register and
launch the rest, and persist the server-status file only when at least
one server was actually started. -/
def Start (running : List String) (now : Nat) (st : SupState) (servers : List String) :
    Option (SupState × List Effect) :=
  match startLoop running now servers st with
  | none => none
  | some (st2, effs, started) =>
    some (st2, if started then effs ++ [Effect.persistServerStatus] else effs)

/-- Kill (part_010 lines 348-369): force-terminate the session; an
operator kill (recover = false) also clears shouldRun, a recovery kill
keeps it. -/
def Kill (recover : Bool) (st : SupState) (server : String) : Option (SupState × List Effect) :=
  if recover then some (st, [Effect.killSession server])
  else
    match setSrv st.servers server (fun s => { s with shouldRun := false }) with
    | none => none
    | some m => some ({ st with servers := m }, [Effect.killSession server])

/-- Outcome of the one-second poll loop in Stop for a single server: the
session either leaves the running set before killServerTimeout
elapses or it is still present after the timeout. The wall-clock wait is
abstracted into this choice. -/
inductive StopBehavior where
  | natural
  | forced
deriving DecidableEq

/-- Collaborator outcomes a Stop call can observe per server. -/
structure StopEnv where
  /-- whether the screen -X stuff stop line is delivered. -/
  sendOk : String → Bool
  /-- whether the server exits by itself within the timeout. -/
  behavior : String → StopBehavior

/-- The goroutine body of Stop for one server (part_010 lines 267-323).
Skipping a non-running server leaves everything untouched; otherwise
shouldRun and startTime are cleared, the stop line is sent, the poll
loop runs and possibly force-kills, and the backup flag is set true. -/
def stopOne (running : List String) (env : StopEnv) (st : SupState) (server : String) :
    Option (SupState × List Effect × Bool) :=
  if server ∈ running then
    match setSrv st.servers server (fun s => { s with shouldRun := false, startTime := 0 }) with
    | none => none
    | some m1 =>
      let st1 : SupState := { st with servers := m1 }
      if env.sendOk server then
        let killed :=
          match env.behavior server with
          | StopBehavior.natural => some (st1, ([] : List Effect))
          | StopBehavior.forced => Kill false st1 server
        match killed with
        | none => none
        | some (st2, killEffs) =>
          some ({ st2 with backups := insertBkp st2.backups server true },
            Effect.sendStop server :: killEffs, true)
      else
        -- the stop line failed: log and return before touching backups
        some (st1, [Effect.sendStop server], true)
  else some (st, [], false)

/-- Stop (part_010 lines 258-333). The per-server goroutines touch
distinct keys and join before the final persist, so they are modelled
sequentially; the stopped flag is the or of the per-server flags, and
the server-status file is persisted only when it is set. -/
def stopLoop (running : List String) (env : StopEnv) :
    List String → SupState → Option (SupState × List Effect × Bool)
  | [], st => some (st, [], false)
  | server :: rest, st =>
    match stopOne running env st server with
    | none => none
    | some (st1, effs1, stopped1) =>
      match stopLoop running env rest st1 with
      | none => none
      | some (st2, effs2, stopped2) => some (st2, effs1 ++ effs2, stopped1 || stopped2)

/-- Stop entry point with the conditional persist. -/
def Stop (running : List String) (env : StopEnv) (st : SupState) (servers : List String) :
    Option (SupState × List Effect) :=
  match stopLoop running env servers st with
  | none => none
  | some (st2, effs, stopped) =>
    some (st2, if stopped then effs ++ [Effect.persistServerStatus] else effs)

/-- One entry of the crash-reports directory. The filename-embedded
timestamp (pattern YYYY-MM-DD_HH.MM.SS, parsed with time.Parse in the
source) is taken already parsed, as seconds. -/
structure CrashReport where
  isDir : Bool
  crashTime : Nat
deriving DecidableEq

/-- The report loop of Recover (part_010 lines 381-416). For each file
report the recovering flag is read (a panic when the server is not
registered), and the first report fresher than recoveryTime with the
flag clear triggers: set recovering, force-kill keeping shouldRun,
schedule the flag reset after recoveryTime (the spawned goroutine is
traced as an effect), and re-Start the server. -/
def recoverLoop (now : Nat) (running : List String) (server : String) :
    List CrashReport → SupState → Option (SupState × List Effect)
  | [], st => some (st, [])
  | r :: rest, st =>
    if r.isDir then recoverLoop now running server rest st
    else
      match lookupSrv st.servers server with
      | none => none
      | some v =>
        if now - r.crashTime < recoveryTime ∧ v.recovering = false then
          match setSrv st.servers server (fun s => { s with recovering := true }) with
          | none => none
          | some m1 =>
            match Kill true { st with servers := m1 } server with
            | none => none
            | some (st2, killEffs) =>
              match Start running now st2 [server] with
              | none => none
              | some (st3, startEffs) =>
                some (st3, killEffs ++ Effect.scheduleRecoveryClear server :: startEffs)
        else recoverLoop now running server rest st

/-- Recover (part_010 lines 372-418). reports is the result of reading
the crash-reports directory: none when the directory does not exist
(which the source treats as no error and no work). -/
def Recover (now : Nat) (running : List String) (reports : Option (List CrashReport))
    (st : SupState) (server : String) : Option (SupState × List Effect) :=
  match reports with
  | none => some (st, [])
  | some rs => recoverLoop now running server rs st

/-! ## Backup coordinator (src backup.go, current variant: shouldBackup
lines 226-238, createBackup lines 241-300, Create lines 194-218) -/

/-- Collaborator outcomes visible to one createBackup call. onlineQ is
the status.Online player-count query: none is a query error (the callers
then see count 0, since Online returns 0 together with the error). -/
structure BackupEnv where
  onlineQ : String → Option Nat
  /-- os.CreateTemp succeeding. -/
  createTempOk : String → Bool
  /-- the chmod on the temporary zip file succeeding. -/
  chmodOk : String → Bool
  /-- copyToZip over the world directory succeeding. -/
  copyOk : String → Bool
  /-- the gcloud storage cp upload succeeding. -/
  uploadOk : String → Bool

/-- shouldBackup (backup.go lines 226-238): a server with no stored
entry defaults to eligible and the default is written into the map;
otherwise force or the stored flag decides. -/
def shouldBackup (force : Bool) (srv : String) (m : BackupMap) : Bool × BackupMap :=
  match lookupBkp m srv with
  | none => (true, insertBkp m srv true)
  | some status => (force || status, m)

/-- createBackup (backup.go lines 241-300). Returns the new state, the
effect trace, the backedUp flag and whether an error was returned; none
is the panic reading ServerStatuses[srv].Port for an unregistered
server. Failure of Notify and ForceSave is ignored by the source, so
both are plain effects. -/
def createBackup (env : BackupEnv) (force : Bool) (srv : String) (st : SupState) :
    Option (SupState × List Effect × Bool × Bool) :=
  let sb := shouldBackup force srv st.backups
  if sb.1 = false then some ({ st with backups := sb.2 }, [], false, false)
  else
    let st1 : SupState := { st with backups := sb.2 }
    let effs0 : List Effect := [Effect.notify srv "Creating backup...", Effect.forceSave srv]
    if env.createTempOk srv = false then some (st1, effs0, false, true)
    else if env.chmodOk srv = false then some (st1, effs0, false, true)
    else if env.copyOk srv = false then some (st1, effs0 ++ [Effect.archive srv], false, true)
    else if env.uploadOk srv = false then
      some (st1, effs0 ++ [Effect.archive srv], false, true)
    else
      let effs1 : List Effect := effs0 ++
        [Effect.archive srv, Effect.upload srv, Effect.notify srv "Backup created"]
      match lookupSrv st1.servers srv with
      | none => none
      | some _ =>
        if (env.onlineQ srv).getD 0 = 0 then
          some ({ st1 with backups := insertBkp st1.backups srv false }, effs1, true, false)
        else some (st1, effs1, true, false)

/-- Create (backup.go lines 194-218). The goroutines hold errsMu for
their whole body, so the createBackup calls are serialized; they are
folded in list order. backupMade is the or of the backedUp results and
gates the single UpdateBackupStatus persist at the end. -/
def createLoop (env : BackupEnv) (force : Bool) :
    List String → SupState → Option (SupState × List Effect × Bool)
  | [], st => some (st, [], false)
  | srv :: rest, st =>
    match createBackup env force srv st with
    | none => none
    | some (st1, effs1, backedUp1, _) =>
      match createLoop env force rest st1 with
      | none => none
      | some (st2, effs2, backedUp2) => some (st2, effs1 ++ effs2, backedUp1 || backedUp2)

/-- Create entry point with the conditional persist of the backup map. -/
def Create (env : BackupEnv) (force : Bool) (st : SupState) (servers : List String) :
    Option (SupState × List Effect) :=
  match createLoop env force servers st with
  | none => none
  | some (st2, effs, backupMade) =>
    some (st2, if backupMade then effs ++ [Effect.persistBackupStatus] else effs)

/-! ## Activity poller (src cmd/manager/main.go handleStatus,
lines 91-132) -/

/-- The per-server loop of handleStatus. A server missing from the
status map is skipped; a failed player query is skipped (the source
only differs in logging depending on whether the server started less
than a minute ago); a positive count sets the backup flag to true and
assigns changed := not (previous flag), overwriting the accumulator
exactly as the source does. A missing backup entry reads as the Go zero
value false. -/
def handleStatusLoop (env : BackupEnv) :
    List String → SupState → Bool → SupState × Bool
  | [], st, changed => (st, changed)
  | srv :: rest, st, changed =>
    match lookupSrv st.servers srv with
    | none => handleStatusLoop env rest st changed
    | some _ =>
      match env.onlineQ srv with
      | none => handleStatusLoop env rest st changed
      | some online =>
        if 0 < online then
          handleStatusLoop env rest
            { st with backups := insertBkp st.backups srv true }
            (!((lookupBkp st.backups srv).getD false))
        else handleStatusLoop env rest st changed

/-- handleStatus: one activity-poller cycle. The returned Bool is
whether UpdateBackupStatus was called (the changed guard at the end). -/
def handleStatus (env : BackupEnv) (running : List String) (st : SupState) :
    SupState × Bool :=
  handleStatusLoop env running st false

/-! ## Command monitor (src monitor.go handleMessage lines 175-195 and
the connection handler lines 138-160) -/

/-- Character-list worker for strings.Fields: collects the current
field in acc (reversed) and splits at whitespace runs. -/
def fieldsAux : List Char → List Char → List String
  | [], acc => if acc.isEmpty then [] else [String.mk acc.reverse]
  | c :: cs, acc =>
    if c.isWhitespace then
      if acc.isEmpty then fieldsAux cs []
      else String.mk acc.reverse :: fieldsAux cs []
    else fieldsAux cs (c :: acc)

/-- strings.Fields: whitespace-delimited fields of the request, with no
empty fields. -/
def requestFields (s : String) : List String :=
  fieldsAux s.data []

/-- Results of the dispatched Supervisor calls as observed by the
monitor (none is a nil error). -/
structure DispatchEnv where
  stopErr : Option String
  startErr : Option String
  restartErr : Option String

/-- The structured response type of the monitor. -/
structure GoResponse where
  status : Nat
  message : String
deriving DecidableEq

/-- NewExecutionError (monitor_windows.go section of the sources):
status 0 carries the success message, any dispatch error becomes
status 103. -/
def NewExecutionError (msg : String) (err : Option String) : GoResponse :=
  match err with
  | none => ⟨0, msg⟩
  | some e => ⟨103, "Failed to execute command: " ++ e⟩

/-- handleMessage (monitor.go lines 175-195). fields[0] and fields[1]
are indexed without a length check; when the split is empty, or equals
exactly the single field server, the Go code panics with an
index-out-of-range, modelled as none. -/
def handleMessage (env : DispatchEnv) (req : String) : Option (String × Option String) :=
  match requestFields req with
  | [] => none
  | f0 :: rest =>
    if f0 = "server" then
      match rest with
      | [] => none
      | f1 :: servers =>
        if f1 = "stop" then
          some ("Stopped servers " ++ String.intercalate " " servers, env.stopErr)
        else if f1 = "start" then
          some ("Started servers " ++ String.intercalate " " servers, env.startErr)
        else if f1 = "restart" then
          some ("Restarted servers " ++ String.intercalate " " servers, env.restartErr)
        else some ("", some ("unknown server request: " ++ f1))
    else some ("", some ("unknown request: " ++ f0))

/-- The tail of the connection handler after a successful read
(monitor.go lines 151-159): the dispatch result is wrapped by
NewExecutionError and written back. A panic inside handleMessage
escapes the goroutine, so no response is produced (none). -/
def respondToRequest (env : DispatchEnv) (req : String) : Option GoResponse :=
  match handleMessage env req with
  | none => none
  | some (msg, err) => some (NewExecutionError msg err)

/-! ## WriteBackupStatus (src backup.go, first variant, lines 151-169) -/

/-- WriteBackupStatus guarded by the emptiness check. The persisted
backup lock file content is passed in and returned (none means the file
does not exist yet); the Bool reports whether a write happened. A Go
nil map and an empty map both have length zero and are both the empty
association list here. -/
def WriteBackupStatus (m : BackupMap) (file : Option BackupMap) : Option BackupMap × Bool :=
  if m.isEmpty then (file, false)
  else (some m, true)

/-! ## Lemmas about Start -/

theorem setSrvList_of_lookup_none (m : ServerMap) (s : String)
    (f : ServerStatus → ServerStatus) (h : lookupSrv m s = none) :
    setSrvList m s f = m := by
  induction m with
  | nil => rfl
  | cons p rest ih =>
    obtain ⟨k0, v0⟩ := p
    rw [lookupSrv] at h
    by_cases hs : s = k0
    · rw [if_pos hs] at h
      exact absurd h (by simp)
    · rw [if_neg hs] at h
      rw [setSrvList_cons, if_neg fun hk => hs hk.symm, ih h]

/-- startLoop never touches the backup map. -/
theorem startLoop_backups (running : List String) (now : Nat) :
    ∀ (names : List String) (st st2 : SupState) (effs : List Effect) (b : Bool),
      startLoop running now names st = some (st2, effs, b) → st2.backups = st.backups := by
  intro names
  induction names with
  | nil =>
    intro st st2 effs b h
    simp only [startLoop, Option.some.injEq, Prod.mk.injEq] at h
    rw [← h.1]
  | cons server rest ih =>
    intro st st2 effs b h
    rw [startLoop] at h
    by_cases hrun : server ∈ running
    · rw [if_pos hrun] at h
      exact ih st st2 effs b h
    · rw [if_neg hrun] at h
      cases hset : setSrv
          (if (determinePort st.servers server).2 then
            { st with servers :=
                (server, ⟨server, false, (determinePort st.servers server).1, 0, false⟩) ::
                  st.servers }
          else st).servers server
          (fun s => { s with shouldRun := true, startTime := now }) with
      | none => simp [hset] at h
      | some m2 =>
        simp only [hset] at h
        cases hrec : startLoop running now rest
            { (if (determinePort st.servers server).2 then
                { st with servers :=
                    (server, ⟨server, false, (determinePort st.servers server).1, 0, false⟩) ::
                      st.servers }
              else st) with servers := m2 } with
        | none => simp [hrec] at h
        | some out =>
          obtain ⟨st3, effs3, b3⟩ := out
          simp only [hrec, Option.some.injEq, Prod.mk.injEq] at h
          have hb := ih _ _ _ _ hrec
          rw [← h.1, hb]
          by_cases hnew : (determinePort st.servers server).2 <;> simp [hnew]

/-- startLoop on names that are all already running changes nothing. -/
theorem startLoop_all_running (running : List String) (now : Nat) :
    ∀ (names : List String) (st : SupState), (∀ s ∈ names, s ∈ running) →
      startLoop running now names st = some (st, [], false) := by
  intro names
  induction names with
  | nil => intro st _; rfl
  | cons server rest ih =>
    intro st hall
    rw [startLoop, if_pos (hall server (by simp))]
    exact ih st fun s hs => hall s (by simp [hs])

/-- The started flag is set exactly when a launch effect was traced, and
the loop itself never persists. -/
theorem startLoop_started_iff (running : List String) (now : Nat) :
    ∀ (names : List String) (st st2 : SupState) (effs : List Effect) (b : Bool),
      startLoop running now names st = some (st2, effs, b) →
      ((b = true ↔ ∃ s, Effect.launch s ∈ effs) ∧ Effect.persistServerStatus ∉ effs) := by
  intro names
  induction names with
  | nil =>
    intro st st2 effs b h
    simp only [startLoop, Option.some.injEq, Prod.mk.injEq] at h
    rw [← h.2.1, ← h.2.2]
    simp
  | cons server rest ih =>
    intro st st2 effs b h
    rw [startLoop] at h
    by_cases hrun : server ∈ running
    · rw [if_pos hrun] at h
      exact ih st st2 effs b h
    · rw [if_neg hrun] at h
      cases hset : setSrv
          (if (determinePort st.servers server).2 then
            { st with servers :=
                (server, ⟨server, false, (determinePort st.servers server).1, 0, false⟩) ::
                  st.servers }
          else st).servers server
          (fun s => { s with shouldRun := true, startTime := now }) with
      | none => simp [hset] at h
      | some m2 =>
        simp only [hset] at h
        cases hrec : startLoop running now rest
            { (if (determinePort st.servers server).2 then
                { st with servers :=
                    (server, ⟨server, false, (determinePort st.servers server).1, 0, false⟩) ::
                      st.servers }
              else st) with servers := m2 } with
        | none => simp [hrec] at h
        | some out =>
          obtain ⟨st3, effs3, b3⟩ := out
          simp only [hrec, Option.some.injEq, Prod.mk.injEq] at h
          obtain ⟨hiff, hpers⟩ := ih _ _ _ _ hrec
          rw [← h.2.1, ← h.2.2]
          constructor
          · constructor
            · intro _
              exact ⟨server, by by_cases hnew : (determinePort st.servers server).2 <;>
                simp [hnew]⟩
            · intro _; rfl
          · intro hmem
            rcases List.mem_append.mp hmem with hmem | hmem
            · by_cases hnew : (determinePort st.servers server).2 <;> simp [hnew] at hmem
            · rcases List.mem_cons.mp hmem with hmem | hmem
              · exact Effect.noConfusion hmem
              · exact hpers hmem

/-- The central Start invariant: over pairwise-distinct, unregistered
and not-running names, every name ends up registered with a port at or
above the base port that avoids every previously used port, and the
ports of the new names are pairwise distinct. -/
theorem startLoop_fresh_spec (running : List String) (now : Nat) :
    ∀ (names : List String) (st : SupState),
      names.Nodup →
      (∀ s ∈ names, lookupSrv st.servers s = none) →
      (∀ s ∈ names, s ∉ running) →
      ∃ st2 effs started, startLoop running now names st = some (st2, effs, started) ∧
        st2.backups = st.backups ∧
        (∀ s, s ∉ names → lookupSrv st2.servers s = lookupSrv st.servers s) ∧
        (∀ s ∈ names, ∃ v, lookupSrv st2.servers s = some v ∧
          baseServerPort ≤ v.port ∧ v.port ∉ usedPorts st.servers) ∧
        (∀ s ∈ names, ∀ t ∈ names, s ≠ t → ∀ v w,
          lookupSrv st2.servers s = some v → lookupSrv st2.servers t = some w →
          v.port ≠ w.port) := by
  intro names
  induction names with
  | nil =>
    intro st _ _ _
    exact ⟨st, [], false, rfl, rfl, fun s _ => rfl, by simp, by simp⟩
  | cons server rest ih =>
    intro st hnodup hfresh hnr
    have hnrh : server ∉ running := hnr server (by simp)
    have hfh : lookupSrv st.servers server = none := hfresh server (by simp)
    have hnodup' : rest.Nodup := (List.nodup_cons.mp hnodup).2
    have hhead : server ∉ rest := (List.nodup_cons.mp hnodup).1
    set p1 : Int :=
      firstFree (usedPorts st.servers) (usedPorts st.servers).length.succ baseServerPort
      with hp1def
    have hD : determinePort st.servers server = (p1, true) := by
      rw [determinePort, hfh]
    have hleast : IsLeastFreeFrom (usedPorts st.servers) baseServerPort p1 := by
      have h := (determinePort_fresh st.servers server hfh).1
      rwa [hD] at h
    have hsetSrv : setSrv
        ((server, (⟨server, false, p1, 0, false⟩ : ServerStatus)) :: st.servers)
        server (fun s => { s with shouldRun := true, startTime := now }) =
        some ((server, (⟨server, true, p1, now, false⟩ : ServerStatus)) :: st.servers) := by
      have hl : lookupSrv
          ((server, (⟨server, false, p1, 0, false⟩ : ServerStatus)) :: st.servers) server =
          some ⟨server, false, p1, 0, false⟩ := by
        rw [lookupSrv, if_pos rfl]
      rw [setSrv, hl, setSrvList_cons, if_pos rfl, setSrvList_of_lookup_none _ _ _ hfh]
    have hfresh' : ∀ s ∈ rest, lookupSrv
        ((server, (⟨server, true, p1, now, false⟩ : ServerStatus)) :: st.servers) s = none := by
      intro s hs
      rw [lookupSrv, if_neg (fun he : s = server => hhead (he ▸ hs))]
      exact hfresh s (by simp [hs])
    obtain ⟨st2, effs, started, hrec, hbk, hpres, hmem, hdist⟩ :=
      ih ⟨(server, (⟨server, true, p1, now, false⟩ : ServerStatus)) :: st.servers, st.backups⟩
        hnodup' hfresh' (fun s hs => hnr s (by simp [hs]))
    have hused1 : usedPorts
        ((server, (⟨server, true, p1, now, false⟩ : ServerStatus)) :: st.servers) =
        p1 :: usedPorts st.servers := rfl
    have hlookup2 : lookupSrv st2.servers server = some ⟨server, true, p1, now, false⟩ := by
      rw [hpres server hhead, lookupSrv, if_pos rfl]
    refine ⟨st2, Effect.setPortFile server p1 :: Effect.launch server :: effs, true,
      ?_, ?_, ?_, ?_, ?_⟩
    · rw [startLoop, if_neg hnrh]
      simp only [hD]
      simp [hsetSrv, hrec]
    · exact hbk
    · intro s hs
      have hsne : s ≠ server := fun he => hs (by simp [he])
      have hsrest : s ∉ rest := fun he => hs (by simp [he])
      rw [hpres s hsrest, lookupSrv, if_neg hsne]
    · intro s hs
      rcases List.mem_cons.mp hs with he | hrest
      · subst he
        exact ⟨⟨s, true, p1, now, false⟩, hlookup2, hleast.1, hleast.2.1⟩
      · obtain ⟨v, hv, hvb, hvn⟩ := hmem s hrest
        rw [hused1] at hvn
        exact ⟨v, hv, hvb, fun hmm => hvn (List.mem_cons.mpr (Or.inr hmm))⟩
    · intro s hs t ht hst v w hv hw
      rcases List.mem_cons.mp hs with he | hsrest <;>
        rcases List.mem_cons.mp ht with he2 | htrest
      · exact absurd (he.trans he2.symm) hst
      · subst he
        obtain ⟨v2, hv2, _, hvn⟩ := hmem t htrest
        rw [hv2] at hw
        cases hw
        rw [hlookup2] at hv
        cases hv
        rw [hused1] at hvn
        exact fun hpp => hvn (hpp ▸ List.mem_cons_self _ _)
      · subst he2
        obtain ⟨v2, hv2, _, hvn⟩ := hmem s hsrest
        rw [hv2] at hv
        cases hv
        rw [hlookup2] at hw
        cases hw
        rw [hused1] at hvn
        exact fun hpp => hvn (hpp ▸ List.mem_cons_self _ _)
      · exact hdist s hsrest t htrest hst v w hv hw

/-! ## Lemmas about Stop -/

/-- A running, registered server whose stop line is delivered always
ends its Stop goroutine with its backup flag forced to true, whether it
exits naturally or is force-killed after the timeout. -/
theorem stopOne_running_sets_flag (running : List String) (env : StopEnv) (st : SupState)
    (server : String) (v : ServerStatus)
    (hmem : server ∈ running) (hreg : lookupSrv st.servers server = some v)
    (hsend : env.sendOk server = true) :
    ∃ st2 effs, stopOne running env st server = some (st2, effs, true) ∧
      lookupBkp st2.backups server = some true := by
  have hset : setSrv st.servers server
      (fun s => { s with shouldRun := false, startTime := 0 }) =
      some (setSrvList st.servers server
        (fun s => { s with shouldRun := false, startTime := 0 })) := by
    rw [setSrv, hreg]
  have hlook1 : lookupSrv (setSrvList st.servers server
      (fun s => { s with shouldRun := false, startTime := 0 })) server =
      some { v with shouldRun := false, startTime := 0 } := by
    rw [lookupSrv_setSrvList, if_pos rfl, hreg]
    rfl
  rw [stopOne, if_pos hmem, hset]
  simp only [hsend, if_pos]
  cases hb : env.behavior server with
  | natural =>
    exact ⟨_, _, rfl, by rw [lookupBkp_insertBkp, if_pos rfl]⟩
  | forced =>
    have hset2 : setSrv (setSrvList st.servers server
        (fun s => { s with shouldRun := false, startTime := 0 })) server
        (fun s => { s with shouldRun := false }) =
        some (setSrvList (setSrvList st.servers server
          (fun s => { s with shouldRun := false, startTime := 0 })) server
          (fun s => { s with shouldRun := false })) := by
      rw [setSrv, hlook1]
    rw [Kill]
    simp only [Bool.false_eq_true, if_false, hset2]
    exact ⟨_, _, rfl, by rw [lookupBkp_insertBkp, if_pos rfl]⟩

/-- Stop on a single server: when it is running (and registered, and
the stop line is delivered) the final backup flag is true; when it is
not running the whole call is a no-op. -/
theorem stop_single (running : List String) (env : StopEnv) (st : SupState)
    (server : String) (v : ServerStatus)
    (hreg : lookupSrv st.servers server = some v) :
    (server ∈ running → env.sendOk server = true →
      ∃ st2 effs, Stop running env st [server] = some (st2, effs) ∧
        lookupBkp st2.backups server = some true) ∧
    (∀ (st3 : SupState) (srv2 : String), srv2 ∉ running →
      Stop running env st3 [srv2] = some (st3, [])) := by
  constructor
  · intro hmem hsend
    obtain ⟨st2, effs, hone, hflag⟩ :=
      stopOne_running_sets_flag running env st server v hmem hreg hsend
    refine ⟨st2, effs ++ [] ++ [Effect.persistServerStatus], ?_, hflag⟩
    rw [Stop, stopLoop, hone]
    rfl
  · intro st3 srv2 hnr
    rw [Stop, stopLoop, stopOne, if_neg hnr]
    rfl

/-! ## Lemmas about Recover -/

/-- Start of a single registered, not-running server: the entry keeps
its port and merely gets shouldRun and startTime set, with one launch
and one persist. -/
theorem start_single_registered (running : List String) (now : Nat) (st : SupState)
    (server : String) (v : ServerStatus)
    (hreg : lookupSrv st.servers server = some v) (hnr : server ∉ running) :
    Start running now st [server] =
      some (⟨setSrvList st.servers server
          (fun s => { s with shouldRun := true, startTime := now }), st.backups⟩,
        [Effect.launch server, Effect.persistServerStatus]) := by
  have hD : determinePort st.servers server = (v.port, false) :=
    determinePort_registered st.servers server v hreg
  have hset : setSrv st.servers server
      (fun s => { s with shouldRun := true, startTime := now }) =
      some (setSrvList st.servers server
        (fun s => { s with shouldRun := true, startTime := now })) := by
    rw [setSrv, hreg]
  rw [Start, startLoop, if_neg hnr]
  simp only [hD]
  simp [hset, startLoop]

/-- While the recovering flag of a registered server is set, the report
loop of Recover triggers nothing, whatever the reports say. -/
theorem recover_noop_of_recovering (now : Nat) (running : List String) (server : String) :
    ∀ (rs : List CrashReport) (st : SupState) (v : ServerStatus),
      lookupSrv st.servers server = some v → v.recovering = true →
      recoverLoop now running server rs st = some (st, []) := by
  intro rs
  induction rs with
  | nil => intro st v _ _; rfl
  | cons r rest ih =>
    intro st v hreg hrecov
    rw [recoverLoop]
    by_cases hd : r.isDir
    · rw [if_pos hd]
      exact ih st v hreg hrecov
    · rw [if_neg hd]
      simp only [hreg]
      rw [if_neg fun hcc => by rw [hrecov] at hcc; exact Bool.noConfusion hcc.2]
      exact ih st v hreg hrecov

/-- With a registered server whose recovering flag is clear, a file
report fresher than the recovery window triggers exactly one
kill/schedule/re-Start sequence, ending with recovering set. -/
theorem recoverLoop_trigger (now : Nat) (running : List String) (server : String) :
    ∀ (rs : List CrashReport) (st : SupState) (v : ServerStatus),
      lookupSrv st.servers server = some v → v.recovering = false →
      server ∉ running →
      (∃ r ∈ rs, r.isDir = false ∧ now - r.crashTime < recoveryTime) →
      recoverLoop now running server rs st =
        some (⟨setSrvList
            (setSrvList st.servers server (fun s => { s with recovering := true }))
            server (fun s => { s with shouldRun := true, startTime := now }), st.backups⟩,
          [Effect.killSession server, Effect.scheduleRecoveryClear server,
            Effect.launch server, Effect.persistServerStatus]) := by
  intro rs
  induction rs with
  | nil =>
    intro st v _ _ _ hex
    obtain ⟨r, hr, _⟩ := hex
    exact absurd hr (List.not_mem_nil r)
  | cons r rest ih =>
    intro st v hreg hrecov hnr hex
    rw [recoverLoop]
    by_cases hd : r.isDir
    · rw [if_pos hd]
      refine ih st v hreg hrecov hnr ?_
      obtain ⟨r2, hr2, hdir2, hfr2⟩ := hex
      rcases List.mem_cons.mp hr2 with he | he
      · rw [he] at hdir2
        rw [hdir2] at hd
        exact absurd hd (by simp)
      · exact ⟨r2, he, hdir2, hfr2⟩
    · rw [if_neg hd]
      simp only [hreg]
      by_cases hc : now - r.crashTime < recoveryTime
      · rw [if_pos ⟨hc, hrecov⟩]
        have hsetRec : setSrv st.servers server (fun s => { s with recovering := true }) =
            some (setSrvList st.servers server (fun s => { s with recovering := true })) := by
          rw [setSrv, hreg]
        have hreg1 : lookupSrv
            (setSrvList st.servers server (fun s => { s with recovering := true })) server =
            some { v with recovering := true } := by
          rw [lookupSrv_setSrvList, if_pos rfl, hreg]
          rfl
        rw [hsetRec]
        simp only [Kill, if_pos]
        rw [start_single_registered running now
          ⟨setSrvList st.servers server (fun s => { s with recovering := true }), st.backups⟩
          server { v with recovering := true } hreg1 hnr]
        rfl
      · rw [if_neg fun hcc => hc hcc.1]
        refine ih st v hreg hrecov hnr ?_
        obtain ⟨r2, hr2, hdir2, hfr2⟩ := hex
        rcases List.mem_cons.mp hr2 with he | he
        · rw [he] at hfr2
          exact absurd hfr2 hc
        · exact ⟨r2, he, hdir2, hfr2⟩

/-- A registered server with only stale (or directory) reports triggers
nothing. -/
theorem recoverLoop_stale (now : Nat) (running : List String) (server : String) :
    ∀ (rs : List CrashReport) (st : SupState) (v : ServerStatus),
      lookupSrv st.servers server = some v →
      (∀ r ∈ rs, r.isDir = false → recoveryTime ≤ now - r.crashTime) →
      recoverLoop now running server rs st = some (st, []) := by
  intro rs
  induction rs with
  | nil => intro st v _ _; rfl
  | cons r rest ih =>
    intro st v hreg hstale
    rw [recoverLoop]
    by_cases hd : r.isDir
    · rw [if_pos hd]
      exact ih st v hreg fun r2 h2 => hstale r2 (by simp [h2])
    · rw [if_neg hd]
      simp only [hreg]
      rw [if_neg fun hcc =>
        absurd hcc.1 (not_lt.mpr (hstale r (by simp) (Bool.not_eq_true r.isDir ▸ hd)))]
      exact ih st v hreg fun r2 h2 => hstale r2 (by simp [h2])

/-! ## Lemmas about the backup coordinator -/

/-- An ineligible server (stored flag false, no force) is skipped with
no side effect at all. -/
theorem createBackup_skip (env : BackupEnv) (srv : String) (st : SupState)
    (hb : lookupBkp st.backups srv = some false) :
    createBackup env false srv st = some (st, [], false, false) := by
  rw [createBackup, shouldBackup, hb]
  rfl

/-- When the eligibility gate passes and every collaborator succeeds,
createBackup reports a successful backup with the full
notify/save/archive/upload/notify trace. -/
theorem createBackup_success (env : BackupEnv) (force : Bool) (srv : String) (st : SupState)
    (v : ServerStatus) (hreg : lookupSrv st.servers srv = some v)
    (hsb : (shouldBackup force srv st.backups).1 = true)
    (ht : env.createTempOk srv = true) (hch : env.chmodOk srv = true)
    (hcp : env.copyOk srv = true) (hu : env.uploadOk srv = true) :
    ∃ st2, createBackup env force srv st =
      some (st2, [Effect.notify srv "Creating backup...", Effect.forceSave srv,
        Effect.archive srv, Effect.upload srv, Effect.notify srv "Backup created"],
        true, false) := by
  rw [createBackup]
  rw [if_neg (by rw [hsb]; exact fun hcc => Bool.noConfusion hcc)]
  rw [if_neg (by rw [ht]; exact fun hcc => Bool.noConfusion hcc)]
  rw [if_neg (by rw [hch]; exact fun hcc => Bool.noConfusion hcc)]
  rw [if_neg (by rw [hcp]; exact fun hcc => Bool.noConfusion hcc)]
  rw [if_neg (by rw [hu]; exact fun hcc => Bool.noConfusion hcc)]
  have hreg1 : lookupSrv
      (SupState.mk st.servers (shouldBackup force srv st.backups).2).servers srv = some v :=
    hreg
  rw [hreg1]
  dsimp only
  by_cases ho : (env.onlineQ srv).getD 0 = 0
  · rw [if_pos ho]
    exact ⟨_, rfl⟩
  · rw [if_neg ho]
    exact ⟨_, rfl⟩

/-- shouldBackup only ever inserts true, so it creates no false entry. -/
theorem shouldBackup_no_new_false (force : Bool) (srv : String) (m : BackupMap) (s : String)
    (h : lookupBkp (shouldBackup force srv m).2 s = some false) :
    lookupBkp m s = some false := by
  rw [shouldBackup] at h
  cases hl : lookupBkp m srv with
  | none =>
    rw [hl] at h
    exact lookupBkp_insertBkp_true_false m srv s h
  | some b =>
    rw [hl] at h
    exact h

/-- createBackup writes false into the backup map only for its own
server, only after a successful (error-free) backup, and only when the
observed player count is zero, with the upload in the trace. -/
theorem createBackup_false_provenance (env : BackupEnv) (force : Bool) (srv : String)
    (st st2 : SupState) (effs : List Effect) (bu er : Bool)
    (h : createBackup env force srv st = some (st2, effs, bu, er)) (s : String)
    (hf : lookupBkp st2.backups s = some false) :
    lookupBkp st.backups s = some false ∨
      (s = srv ∧ bu = true ∧ er = false ∧ (env.onlineQ srv).getD 0 = 0 ∧
        Effect.upload srv ∈ effs) := by
  rw [createBackup] at h
  dsimp only at h
  split at h
  · simp only [Option.some.injEq, Prod.mk.injEq] at h
    rw [← h.1] at hf
    exact Or.inl (shouldBackup_no_new_false force srv st.backups s hf)
  · split at h
    · simp only [Option.some.injEq, Prod.mk.injEq] at h
      rw [← h.1] at hf
      exact Or.inl (shouldBackup_no_new_false force srv st.backups s hf)
    · split at h
      · simp only [Option.some.injEq, Prod.mk.injEq] at h
        rw [← h.1] at hf
        exact Or.inl (shouldBackup_no_new_false force srv st.backups s hf)
      · split at h
        · simp only [Option.some.injEq, Prod.mk.injEq] at h
          rw [← h.1] at hf
          exact Or.inl (shouldBackup_no_new_false force srv st.backups s hf)
        · split at h
          · simp only [Option.some.injEq, Prod.mk.injEq] at h
            rw [← h.1] at hf
            exact Or.inl (shouldBackup_no_new_false force srv st.backups s hf)
          · split at h
            · exact absurd h (by simp)
            · split at h
              · rename_i ho
                simp only [Option.some.injEq, Prod.mk.injEq] at h
                obtain ⟨h1, h2, h3, h4⟩ := h
                rw [← h1] at hf
                by_cases hs : s = srv
                · subst hs
                  right
                  refine ⟨rfl, h3.symm, h4.symm, ho, ?_⟩
                  rw [← h2]
                  simp
                · left
                  have hf2 : lookupBkp
                      (insertBkp (shouldBackup force srv st.backups).2 srv false) s =
                      some false := hf
                  rw [lookupBkp_insertBkp, if_neg hs] at hf2
                  exact shouldBackup_no_new_false force srv st.backups s hf2
              · simp only [Option.some.injEq, Prod.mk.injEq] at h
                rw [← h.1] at hf
                exact Or.inl (shouldBackup_no_new_false force srv st.backups s hf)

/-- Lifting the provenance fact through the Create fold. -/
theorem createLoop_false_provenance (env : BackupEnv) (force : Bool) :
    ∀ (names : List String) (st st2 : SupState) (effs : List Effect) (made : Bool),
      createLoop env force names st = some (st2, effs, made) →
      ∀ s, lookupBkp st2.backups s = some false →
        lookupBkp st.backups s = some false ∨
          ((env.onlineQ s).getD 0 = 0 ∧ Effect.upload s ∈ effs) := by
  intro names
  induction names with
  | nil =>
    intro st st2 effs made h s hf
    simp only [createLoop, Option.some.injEq, Prod.mk.injEq] at h
    rw [← h.1] at hf
    exact Or.inl hf
  | cons srv rest ih =>
    intro st st2 effs made h s hf
    rw [createLoop] at h
    cases hcb : createBackup env force srv st with
    | none => rw [hcb] at h; exact Option.noConfusion h
    | some out1 =>
      obtain ⟨st1, effs1, bu1, er1⟩ := out1
      rw [hcb] at h
      dsimp only at h
      cases hrec : createLoop env force rest st1 with
      | none => rw [hrec] at h; exact Option.noConfusion h
      | some out2 =>
        obtain ⟨st3, effs2, made2⟩ := out2
        rw [hrec] at h
        simp only [Option.some.injEq, Prod.mk.injEq] at h
        obtain ⟨h1, h2, -⟩ := h
        rw [← h1] at hf
        rcases ih st1 st3 effs2 made2 hrec s hf with hleft | ⟨ho, hm⟩
        · rcases createBackup_false_provenance env force srv st st1 effs1 bu1 er1 hcb s
            hleft with hleft2 | ⟨hs, -, -, ho2, hm2⟩
          · exact Or.inl hleft2
          · subst hs
            exact Or.inr ⟨ho2, by rw [← h2]; exact List.mem_append.mpr (Or.inl hm2)⟩
        · exact Or.inr ⟨ho, by rw [← h2]; exact List.mem_append.mpr (Or.inr hm)⟩

/-- Kill never touches the backup map. -/
theorem Kill_backups (recover : Bool) (st st2 : SupState) (server : String)
    (effs : List Effect) (h : Kill recover st server = some (st2, effs)) :
    st2.backups = st.backups := by
  rw [Kill] at h
  split at h
  · simp only [Option.some.injEq, Prod.mk.injEq] at h
    rw [← h.1]
  · split at h
    · exact Option.noConfusion h
    · simp only [Option.some.injEq, Prod.mk.injEq] at h
      rw [← h.1]

/-- A single Stop goroutine never writes false into the backup map. -/
theorem stopOne_no_false (running : List String) (env : StopEnv) (st st2 : SupState)
    (server : String) (effs : List Effect) (b : Bool)
    (h : stopOne running env st server = some (st2, effs, b)) (s : String)
    (hf : lookupBkp st2.backups s = some false) : lookupBkp st.backups s = some false := by
  rw [stopOne] at h
  split at h
  · split at h
    · exact Option.noConfusion h
    · rename_i m1 hm1
      dsimp only at h
      split at h
      · cases hb : env.behavior server with
        | natural =>
          rw [hb] at h
          dsimp only at h
          simp only [Option.some.injEq, Prod.mk.injEq] at h
          rw [← h.1] at hf
          have hf2 : lookupBkp (insertBkp st.backups server true) s = some false := hf
          exact lookupBkp_insertBkp_true_false st.backups server s hf2
        | forced =>
          rw [hb] at h
          dsimp only at h
          split at h
          · exact Option.noConfusion h
          · rename_i stk killEffs hkill
            simp only [Option.some.injEq, Prod.mk.injEq] at h
            rw [← h.1] at hf
            have hf2 : lookupBkp (insertBkp stk.backups server true) s = some false := hf
            have hk := Kill_backups false _ stk server killEffs hkill
            have hf3 := lookupBkp_insertBkp_true_false stk.backups server s hf2
            rw [hk] at hf3
            exact hf3
      · simp only [Option.some.injEq, Prod.mk.injEq] at h
        rw [← h.1] at hf
        exact hf
  · simp only [Option.some.injEq, Prod.mk.injEq] at h
    rw [← h.1] at hf
    exact hf

/-- The Stop fold never writes false into the backup map. -/
theorem stopLoop_no_false (running : List String) (env : StopEnv) :
    ∀ (names : List String) (st st2 : SupState) (effs : List Effect) (b : Bool),
      stopLoop running env names st = some (st2, effs, b) →
      ∀ s, lookupBkp st2.backups s = some false → lookupBkp st.backups s = some false := by
  intro names
  induction names with
  | nil =>
    intro st st2 effs b h s hf
    simp only [stopLoop, Option.some.injEq, Prod.mk.injEq] at h
    rw [← h.1] at hf
    exact hf
  | cons server rest ih =>
    intro st st2 effs b h s hf
    rw [stopLoop] at h
    cases hone : stopOne running env st server with
    | none => rw [hone] at h; exact Option.noConfusion h
    | some out1 =>
      obtain ⟨st1, effs1, b1⟩ := out1
      rw [hone] at h
      dsimp only at h
      cases hrec : stopLoop running env rest st1 with
      | none => rw [hrec] at h; exact Option.noConfusion h
      | some out2 =>
        obtain ⟨st3, effs2, b2⟩ := out2
        rw [hrec] at h
        simp only [Option.some.injEq, Prod.mk.injEq] at h
        rw [← h.1] at hf
        exact stopOne_no_false running env st st1 server effs1 b1 hone s
          (ih st1 st3 effs2 b2 hrec s hf)

/-- Stop never writes false into the backup map. -/
theorem Stop_no_false (running : List String) (env : StopEnv) (names : List String)
    (st st2 : SupState) (effs : List Effect)
    (h : Stop running env st names = some (st2, effs)) (s : String)
    (hf : lookupBkp st2.backups s = some false) : lookupBkp st.backups s = some false := by
  rw [Stop] at h
  cases hl : stopLoop running env names st with
  | none => rw [hl] at h; exact Option.noConfusion h
  | some out =>
    obtain ⟨st3, effs3, b3⟩ := out
    rw [hl] at h
    simp only [Option.some.injEq, Prod.mk.injEq] at h
    rw [← h.1] at hf
    exact stopLoop_no_false running env names st st3 effs3 b3 hl s hf

/-- The activity-poller cycle never writes false into the backup map. -/
theorem handleStatusLoop_no_false (env : BackupEnv) :
    ∀ (names : List String) (st : SupState) (changed : Bool) (s : String),
      lookupBkp (handleStatusLoop env names st changed).1.backups s = some false →
      lookupBkp st.backups s = some false := by
  intro names
  induction names with
  | nil => intro st changed s hf; exact hf
  | cons srv rest ih =>
    intro st changed s hf
    rw [handleStatusLoop] at hf
    cases hl : lookupSrv st.servers srv with
    | none =>
      rw [hl] at hf
      exact ih st changed s hf
    | some v =>
      rw [hl] at hf
      cases ho : env.onlineQ srv with
      | none =>
        rw [ho] at hf
        exact ih st changed s hf
      | some online =>
        rw [ho] at hf
        dsimp only at hf
        by_cases hpos : 0 < online
        · rw [if_pos hpos] at hf
          have hf2 := ih _ _ s hf
          exact lookupBkp_insertBkp_true_false st.backups srv s hf2
        · rw [if_neg hpos] at hf
          exact ih st changed s hf

/-- Start leaves the backup map untouched. -/
theorem Start_backups (running : List String) (now : Nat) (st : SupState)
    (names : List String) (st2 : SupState) (effs : List Effect)
    (h : Start running now st names = some (st2, effs)) : st2.backups = st.backups := by
  rw [Start] at h
  cases hl : startLoop running now names st with
  | none => rw [hl] at h; exact Option.noConfusion h
  | some out =>
    obtain ⟨st3, effs3, b3⟩ := out
    rw [hl] at h
    simp only [Option.some.injEq, Prod.mk.injEq] at h
    rw [← h.1]
    exact startLoop_backups running now names st st3 effs3 b3 hl

/-- The Recover report loop leaves the backup map untouched. -/
theorem recoverLoop_backups (now : Nat) (running : List String) (server : String) :
    ∀ (rs : List CrashReport) (st st2 : SupState) (effs : List Effect),
      recoverLoop now running server rs st = some (st2, effs) →
      st2.backups = st.backups := by
  intro rs
  induction rs with
  | nil =>
    intro st st2 effs h
    simp only [recoverLoop, Option.some.injEq, Prod.mk.injEq] at h
    rw [← h.1]
  | cons r rest ih =>
    intro st st2 effs h
    rw [recoverLoop] at h
    split at h
    · exact ih st st2 effs h
    · split at h
      · exact Option.noConfusion h
      · split at h
        · split at h
          · exact Option.noConfusion h
          · rename_i m1 hm1
            split at h
            · exact Option.noConfusion h
            · rename_i stk killEffs hkill
              split at h
              · exact Option.noConfusion h
              · rename_i st3 startEffs hstart
                simp only [Option.some.injEq, Prod.mk.injEq] at h
                rw [← h.1]
                have h3 := Start_backups running now stk [server] st3 startEffs hstart
                have h2 := Kill_backups true _ stk server killEffs hkill
                rw [h3, h2]
        · exact ih st st2 effs h

/-- Recover leaves the backup map untouched. -/
theorem Recover_backups (now : Nat) (running : List String)
    (reports : Option (List CrashReport)) (st : SupState) (server : String)
    (st2 : SupState) (effs : List Effect)
    (h : Recover now running reports st server = some (st2, effs)) :
    st2.backups = st.backups := by
  cases reports with
  | none =>
    simp only [Recover, Option.some.injEq, Prod.mk.injEq] at h
    rw [← h.1]
  | some rs =>
    rw [Recover] at h
    exact recoverLoop_backups now running server rs st st2 effs h

/-! ## Claim theorems -/

/-- C1: across a sequence of Start calls over distinct, previously
unknown (and not running) server names, every newly registered server
gets the lowest unused port at or above baseServerPort at the moment of
its registration, so the resulting ports are pairwise distinct, at or
above the base port, and disjoint from all previously used ports; a
registered server reuses its stored port. -/
theorem c1_start_port_uniqueness (running : List String) (now : Nat) (st : SupState)
    (names : List String) (hnodup : names.Nodup)
    (hfresh : ∀ s ∈ names, lookupSrv st.servers s = none)
    (hnr : ∀ s ∈ names, s ∉ running) :
    (∃ st2 effs, Start running now st names = some (st2, effs) ∧
      (∀ s ∈ names, ∃ v, lookupSrv st2.servers s = some v ∧
        baseServerPort ≤ v.port ∧ v.port ∉ usedPorts st.servers) ∧
      (∀ s ∈ names, ∀ t ∈ names, s ≠ t → ∀ v w,
        lookupSrv st2.servers s = some v → lookupSrv st2.servers t = some w →
        v.port ≠ w.port)) ∧
    (∀ (m : ServerMap) (s : String), lookupSrv m s = none →
      IsLeastFreeFrom (usedPorts m) baseServerPort (determinePort m s).1 ∧
        (determinePort m s).2 = true) ∧
    (∀ (m : ServerMap) (s : String) (v : ServerStatus), lookupSrv m s = some v →
      determinePort m s = (v.port, false)) := by
  refine ⟨?_, determinePort_fresh, determinePort_registered⟩
  obtain ⟨st2, effs, started, heq, _, _, hmem, hdist⟩ :=
    startLoop_fresh_spec running now names st hnodup hfresh hnr
  refine ⟨st2, if started then effs ++ [Effect.persistServerStatus] else effs, ?_, hmem, hdist⟩
  rw [Start, heq]

/-- Witness for C1 at a concrete input: starting the two fresh servers
a and b from the empty state. -/
theorem c1_start_port_uniqueness_witness :
    (∃ st2 effs, Start [] 3 ⟨[], []⟩ ["a", "b"] = some (st2, effs) ∧
      (∀ s ∈ ["a", "b"], ∃ v, lookupSrv st2.servers s = some v ∧
        baseServerPort ≤ v.port ∧ v.port ∉ usedPorts ([] : ServerMap)) ∧
      (∀ s ∈ ["a", "b"], ∀ t ∈ ["a", "b"], s ≠ t → ∀ v w,
        lookupSrv st2.servers s = some v → lookupSrv st2.servers t = some w →
        v.port ≠ w.port)) ∧
    (∀ (m : ServerMap) (s : String), lookupSrv m s = none →
      IsLeastFreeFrom (usedPorts m) baseServerPort (determinePort m s).1 ∧
        (determinePort m s).2 = true) ∧
    (∀ (m : ServerMap) (s : String) (v : ServerStatus), lookupSrv m s = some v →
      determinePort m s = (v.port, false)) :=
  c1_start_port_uniqueness [] 3 ⟨[], []⟩ ["a", "b"] (by decide) (by decide) (by decide)

/-- C2: starting servers that are all already running is a no-op that
does not rewrite the persisted server-status file, and in general Start
persists exactly when at least one server was actually launched. -/
theorem c2_start_idempotent_no_persist (running : List String) (now : Nat) (st : SupState)
    (names : List String) (hall : ∀ s ∈ names, s ∈ running) :
    Start running now st names = some (st, []) ∧
    (∀ (running2 : List String) (now2 : Nat) (st3 : SupState) (names2 : List String)
        (st4 : SupState) (effs : List Effect),
      Start running2 now2 st3 names2 = some (st4, effs) →
      (Effect.persistServerStatus ∈ effs ↔ ∃ s, Effect.launch s ∈ effs)) := by
  constructor
  · rw [Start, startLoop_all_running running now names st hall]
    rfl
  · intro running2 now2 st3 names2 st4 effs heq
    rw [Start] at heq
    cases hl : startLoop running2 now2 names2 st3 with
    | none => rw [hl] at heq; exact Option.noConfusion heq
    | some out =>
      obtain ⟨st5, effs5, b5⟩ := out
      rw [hl] at heq
      obtain ⟨hiff, hpers⟩ := startLoop_started_iff running2 now2 names2 st3 st5 effs5 b5 hl
      simp only [Option.some.injEq, Prod.mk.injEq] at heq
      obtain ⟨hst, heffs⟩ := heq
      cases b5 with
      | true =>
        simp only [if_pos] at heffs
        rw [← heffs]
        constructor
        · intro _
          obtain ⟨s, hs⟩ := hiff.mp rfl
          exact ⟨s, List.mem_append.mpr (Or.inl hs)⟩
        · intro _
          exact List.mem_append.mpr (Or.inr (by simp))
      | false =>
        simp only [Bool.false_eq_true, if_false] at heffs
        rw [← heffs]
        constructor
        · intro hmem
          exact absurd hmem hpers
        · intro hex
          exact absurd (hiff.mpr hex) (by simp)

/-- Witness for C2: a second Start of the already-running server a is a
no-op with no persist. -/
theorem c2_start_idempotent_no_persist_witness :
    Start ["a"] 7 ⟨[("a", ⟨"a", true, 25565, 4, false⟩)], []⟩ ["a"] =
      some (⟨[("a", ⟨"a", true, 25565, 4, false⟩)], []⟩, []) :=
  (c2_start_idempotent_no_persist ["a"] 7
    ⟨[("a", ⟨"a", true, 25565, 4, false⟩)], []⟩ ["a"] (by decide)).1

/-- C3: with a crash report younger than the recovery window, Recover
of a registered, not-running server acts only when the recovering flag
is clear: it force-kills with recover set (which preserves shouldRun,
last conjunct), schedules the flag reset, re-Starts the server and
leaves recovering set, so that a second Recover on the resulting state
triggers no second Start; with the flag already set, Recover performs
no kill and no Start. -/
theorem c3_recover_guard (now : Nat) (running : List String) (rs : List CrashReport)
    (st : SupState) (server : String) (v : ServerStatus)
    (hreg : lookupSrv st.servers server = some v)
    (hnr : server ∉ running)
    (hex : ∃ r ∈ rs, r.isDir = false ∧ now - r.crashTime < recoveryTime) :
    (v.recovering = false →
      ∃ st2 effs, Recover now running (some rs) st server = some (st2, effs) ∧
        Effect.killSession server ∈ effs ∧
        Effect.scheduleRecoveryClear server ∈ effs ∧
        Effect.launch server ∈ effs ∧
        lookupSrv st2.servers server = some ⟨v.name, true, v.port, now, true⟩ ∧
        Recover now running (some rs) st2 server = some (st2, [])) ∧
    (v.recovering = true →
      Recover now running (some rs) st server = some (st, [])) ∧
    (∀ (st4 : SupState) (srv4 : String),
      Kill true st4 srv4 = some (st4, [Effect.killSession srv4])) := by
  refine ⟨?_, ?_, fun st4 srv4 => rfl⟩
  · intro hrecov
    have htr := recoverLoop_trigger now running server rs st v hreg hrecov hnr hex
    have hlook2 : lookupSrv
        (setSrvList (setSrvList st.servers server (fun s => { s with recovering := true }))
          server (fun s => { s with shouldRun := true, startTime := now })) server =
        some ⟨v.name, true, v.port, now, true⟩ := by
      rw [lookupSrv_setSrvList, if_pos rfl, lookupSrv_setSrvList, if_pos rfl, hreg]
      rfl
    refine ⟨⟨setSrvList (setSrvList st.servers server (fun s => { s with recovering := true }))
        server (fun s => { s with shouldRun := true, startTime := now }), st.backups⟩,
      [Effect.killSession server, Effect.scheduleRecoveryClear server,
        Effect.launch server, Effect.persistServerStatus], ?_, by simp, by simp, by simp,
      hlook2, ?_⟩
    · rw [Recover, htr]
    · rw [Recover]
      exact recover_noop_of_recovering now running server rs _ _ hlook2 rfl
  · intro hrecov
    rw [Recover]
    exact recover_noop_of_recovering now running server rs st v hreg hrecov

/-- Witness for C3: a fresh crash report for the registered server a
with the recovering flag clear. -/
theorem c3_recover_guard_witness :
    ((⟨"a", true, 25565, 2, false⟩ : ServerStatus).recovering = false →
      ∃ st2 effs, Recover 10 [] (some [⟨false, 0⟩])
          ⟨[("a", ⟨"a", true, 25565, 2, false⟩)], []⟩ "a" = some (st2, effs) ∧
        Effect.killSession "a" ∈ effs ∧
        Effect.scheduleRecoveryClear "a" ∈ effs ∧
        Effect.launch "a" ∈ effs ∧
        lookupSrv st2.servers "a" = some ⟨"a", true, 25565, 10, true⟩ ∧
        Recover 10 [] (some [⟨false, 0⟩]) st2 "a" = some (st2, [])) ∧
    ((⟨"a", true, 25565, 2, false⟩ : ServerStatus).recovering = true →
      Recover 10 [] (some [⟨false, 0⟩])
        ⟨[("a", ⟨"a", true, 25565, 2, false⟩)], []⟩ "a" =
        some (⟨[("a", ⟨"a", true, 25565, 2, false⟩)], []⟩, [])) ∧
    (∀ (st4 : SupState) (srv4 : String),
      Kill true st4 srv4 = some (st4, [Effect.killSession srv4])) :=
  c3_recover_guard 10 [] [⟨false, 0⟩] ⟨[("a", ⟨"a", true, 25565, 2, false⟩)], []⟩ "a"
    ⟨"a", true, 25565, 2, false⟩ (by decide) (by decide) (by decide)

/-- C4: Recover treats a missing crash-report directory as success with
no work, and ignores reports whose embedded timestamp is older than the
recovery window (no kill, no restart, state unchanged). -/
theorem c4_recover_absent_and_stale (now : Nat) (running : List String)
    (st : SupState) (server : String) :
    (Recover now running none st server = some (st, [])) ∧
    (∀ (rs : List CrashReport) (v : ServerStatus),
      lookupSrv st.servers server = some v →
      (∀ r ∈ rs, r.isDir = false → recoveryTime ≤ now - r.crashTime) →
      Recover now running (some rs) st server = some (st, [])) := by
  constructor
  · rfl
  · intro rs v hreg hstale
    rw [Recover]
    exact recoverLoop_stale now running server rs st v hreg hstale

/-- Witness for C4: the missing-directory case and a report 90 seconds
old, both leaving the state untouched. -/
theorem c4_recover_absent_and_stale_witness :
    Recover 100 [] none ⟨[("a", ⟨"a", true, 25565, 2, false⟩)], []⟩ "a" =
      some (⟨[("a", ⟨"a", true, 25565, 2, false⟩)], []⟩, []) ∧
    Recover 100 [] (some [⟨false, 10⟩]) ⟨[("a", ⟨"a", true, 25565, 2, false⟩)], []⟩ "a" =
      some (⟨[("a", ⟨"a", true, 25565, 2, false⟩)], []⟩, []) :=
  ⟨(c4_recover_absent_and_stale 100 [] ⟨[("a", ⟨"a", true, 25565, 2, false⟩)], []⟩ "a").1,
    (c4_recover_absent_and_stale 100 [] ⟨[("a", ⟨"a", true, 25565, 2, false⟩)], []⟩ "a").2
      [⟨false, 10⟩] ⟨"a", true, 25565, 2, false⟩ (by decide) (by decide)⟩

/-- C5: a successful Stop of a running registered server (natural exit
or forced kill alike, both covered by the arbitrary behavior oracle)
leaves the backup-eligibility flag of that server true regardless of
its previous value, and Stop of a server outside the running set is a
no-op that changes no state at all. -/
theorem c5_stop_backup_eligibility (running : List String) (env : StopEnv) (st : SupState)
    (server : String) (v : ServerStatus)
    (hreg : lookupSrv st.servers server = some v)
    (hmem : server ∈ running) (hsend : env.sendOk server = true) :
    (∃ st2 effs, Stop running env st [server] = some (st2, effs) ∧
      lookupBkp st2.backups server = some true) ∧
    (∀ (st3 : SupState) (srv2 : String), srv2 ∉ running →
      Stop running env st3 [srv2] = some (st3, [])) :=
  ⟨(stop_single running env st server v hreg).1 hmem hsend,
    (stop_single running env st server v hreg).2⟩

/-- Witness for C5: stopping the running server a whose flag was false,
with a forced kill after the timeout. -/
theorem c5_stop_backup_eligibility_witness :
    (∃ st2 effs, Stop ["a"] ⟨fun _ => true, fun _ => StopBehavior.forced⟩
        ⟨[("a", ⟨"a", true, 25565, 2, false⟩)], [("a", false)]⟩ ["a"] = some (st2, effs) ∧
      lookupBkp st2.backups "a" = some true) ∧
    (∀ (st3 : SupState) (srv2 : String), srv2 ∉ ["a"] →
      Stop ["a"] ⟨fun _ => true, fun _ => StopBehavior.forced⟩ st3 [srv2] = some (st3, [])) :=
  c5_stop_backup_eligibility ["a"] ⟨fun _ => true, fun _ => StopBehavior.forced⟩
    ⟨[("a", ⟨"a", true, 25565, 2, false⟩)], [("a", false)]⟩ "a"
    ⟨"a", true, 25565, 2, false⟩ (by decide) (by decide) (by decide)

/-- C6: Create with force clear on a server whose stored eligibility is
false performs no notify, archive or upload and leaves the state (maps
and persisted files) unchanged; Create with force set performs the full
backup whatever the stored flag says; and a server with no stored entry
defaults to eligible and is backed up. -/
theorem c6_backup_gating (env : BackupEnv) (st : SupState) (srv : String) (v : ServerStatus)
    (hreg : lookupSrv st.servers srv = some v)
    (ht : env.createTempOk srv = true) (hch : env.chmodOk srv = true)
    (hcp : env.copyOk srv = true) (hu : env.uploadOk srv = true) :
    (lookupBkp st.backups srv = some false →
      Create env false st [srv] = some (st, [])) ∧
    (∀ b : Bool, lookupBkp st.backups srv = some b →
      ∃ st2 effs, Create env true st [srv] = some (st2, effs) ∧
        Effect.notify srv "Creating backup..." ∈ effs ∧
        Effect.archive srv ∈ effs ∧ Effect.upload srv ∈ effs ∧
        Effect.persistBackupStatus ∈ effs) ∧
    (lookupBkp st.backups srv = none → ∀ force : Bool,
      ∃ st2 effs, Create env force st [srv] = some (st2, effs) ∧
        Effect.notify srv "Creating backup..." ∈ effs ∧
        Effect.archive srv ∈ effs ∧ Effect.upload srv ∈ effs ∧
        Effect.persistBackupStatus ∈ effs) := by
  refine ⟨?_, ?_, ?_⟩
  · intro hb
    rw [Create, createLoop, createBackup_skip env srv st hb]
    rfl
  · intro b hb
    have hsb : (shouldBackup true srv st.backups).1 = true := by
      rw [shouldBackup, hb]
      simp
    obtain ⟨st2, hcb⟩ := createBackup_success env true srv st v hreg hsb ht hch hcp hu
    refine ⟨st2, ([Effect.notify srv "Creating backup...", Effect.forceSave srv,
      Effect.archive srv, Effect.upload srv, Effect.notify srv "Backup created"] ++ []) ++
      [Effect.persistBackupStatus], ?_, by simp, by simp, by simp, by simp⟩
    rw [Create, createLoop, hcb]
    rfl
  · intro hb force
    have hsb : (shouldBackup force srv st.backups).1 = true := by
      rw [shouldBackup, hb]
    obtain ⟨st2, hcb⟩ := createBackup_success env force srv st v hreg hsb ht hch hcp hu
    refine ⟨st2, ([Effect.notify srv "Creating backup...", Effect.forceSave srv,
      Effect.archive srv, Effect.upload srv, Effect.notify srv "Backup created"] ++ []) ++
      [Effect.persistBackupStatus], ?_, by simp, by simp, by simp, by simp⟩
    rw [Create, createLoop, hcb]
    rfl

/-- Witness for C6 at a concrete state: server a registered, eligibility
stored false (skip and force cases) and absent (default case). -/
theorem c6_backup_gating_witness :
    ((lookupBkp [("a", false)] "a" = some false →
      Create ⟨fun _ => some 0, fun _ => true, fun _ => true, fun _ => true, fun _ => true⟩
        false ⟨[("a", ⟨"a", true, 25565, 0, false⟩)], [("a", false)]⟩ ["a"] =
        some (⟨[("a", ⟨"a", true, 25565, 0, false⟩)], [("a", false)]⟩, [])) ∧
    (∀ b : Bool, lookupBkp [("a", false)] "a" = some b →
      ∃ st2 effs, Create ⟨fun _ => some 0, fun _ => true, fun _ => true, fun _ => true,
          fun _ => true⟩ true ⟨[("a", ⟨"a", true, 25565, 0, false⟩)], [("a", false)]⟩ ["a"] =
          some (st2, effs) ∧
        Effect.notify "a" "Creating backup..." ∈ effs ∧
        Effect.archive "a" ∈ effs ∧ Effect.upload "a" ∈ effs ∧
        Effect.persistBackupStatus ∈ effs) ∧
    (lookupBkp [("a", false)] "a" = none → ∀ force : Bool,
      ∃ st2 effs, Create ⟨fun _ => some 0, fun _ => true, fun _ => true, fun _ => true,
          fun _ => true⟩ force ⟨[("a", ⟨"a", true, 25565, 0, false⟩)], [("a", false)]⟩ ["a"] =
          some (st2, effs) ∧
        Effect.notify "a" "Creating backup..." ∈ effs ∧
        Effect.archive "a" ∈ effs ∧ Effect.upload "a" ∈ effs ∧
        Effect.persistBackupStatus ∈ effs)) ∧
    (lookupBkp [] "a" = none → ∀ force : Bool,
      ∃ st2 effs, Create ⟨fun _ => some 0, fun _ => true, fun _ => true, fun _ => true,
          fun _ => true⟩ force ⟨[("a", ⟨"a", true, 25565, 0, false⟩)], []⟩ ["a"] =
          some (st2, effs) ∧
        Effect.notify "a" "Creating backup..." ∈ effs ∧
        Effect.archive "a" ∈ effs ∧ Effect.upload "a" ∈ effs ∧
        Effect.persistBackupStatus ∈ effs) :=
  ⟨c6_backup_gating ⟨fun _ => some 0, fun _ => true, fun _ => true, fun _ => true, fun _ => true⟩
      ⟨[("a", ⟨"a", true, 25565, 0, false⟩)], [("a", false)]⟩ "a"
      ⟨"a", true, 25565, 0, false⟩ (by decide) (by decide) (by decide) (by decide) (by decide),
    (c6_backup_gating ⟨fun _ => some 0, fun _ => true, fun _ => true, fun _ => true,
        fun _ => true⟩ ⟨[("a", ⟨"a", true, 25565, 0, false⟩)], []⟩ "a"
      ⟨"a", true, 25565, 0, false⟩ (by decide) (by decide) (by decide) (by decide)
      (by decide)).2.2⟩

/-- C7: the backup-eligibility flag goes to false only inside
createBackup, for its own server, after the backup completed with no
error (backedUp true, upload in the trace) and with the player count
observed as zero (a failed query reads as zero, covering a server no
longer running); ineligible skips and every failure path leave no new
false entry, and neither Create as a whole nor Stop, the activity
poller, Start or Recover ever write false. -/
theorem c7_flag_false_only_after_backup :
    (∀ (env : BackupEnv) (force : Bool) (srv : String) (st st2 : SupState)
        (effs : List Effect) (bu er : Bool),
      createBackup env force srv st = some (st2, effs, bu, er) →
      ∀ s, lookupBkp st2.backups s = some false →
        lookupBkp st.backups s = some false ∨
          (s = srv ∧ bu = true ∧ er = false ∧ (env.onlineQ srv).getD 0 = 0 ∧
            Effect.upload srv ∈ effs)) ∧
    (∀ (env : BackupEnv) (force : Bool) (names : List String) (st st2 : SupState)
        (effs : List Effect),
      Create env force st names = some (st2, effs) →
      ∀ s, lookupBkp st2.backups s = some false →
        lookupBkp st.backups s = some false ∨
          ((env.onlineQ s).getD 0 = 0 ∧ Effect.upload s ∈ effs)) ∧
    (∀ (running : List String) (env : StopEnv) (names : List String) (st st2 : SupState)
        (effs : List Effect),
      Stop running env st names = some (st2, effs) →
      ∀ s, lookupBkp st2.backups s = some false → lookupBkp st.backups s = some false) ∧
    (∀ (env : BackupEnv) (running : List String) (st : SupState) (s : String),
      lookupBkp (handleStatus env running st).1.backups s = some false →
      lookupBkp st.backups s = some false) ∧
    (∀ (running : List String) (now : Nat) (st : SupState) (names : List String)
        (st2 : SupState) (effs : List Effect),
      Start running now st names = some (st2, effs) → st2.backups = st.backups) ∧
    (∀ (now : Nat) (running : List String) (reports : Option (List CrashReport))
        (st : SupState) (server : String) (st2 : SupState) (effs : List Effect),
      Recover now running reports st server = some (st2, effs) →
      st2.backups = st.backups) := by
  refine ⟨createBackup_false_provenance, ?_, Stop_no_false,
    fun env running st s hf => handleStatusLoop_no_false env running st false s hf,
    Start_backups, Recover_backups⟩
  intro env force names st st2 effs h s hf
  rw [Create] at h
  cases hl : createLoop env force names st with
  | none => rw [hl] at h; exact Option.noConfusion h
  | some out =>
    obtain ⟨st3, effs3, made⟩ := out
    rw [hl] at h
    simp only [Option.some.injEq, Prod.mk.injEq] at h
    obtain ⟨h1, h2⟩ := h
    rw [← h1] at hf
    rcases createLoop_false_provenance env force names st st3 effs3 made hl s hf with
      hleft | ⟨ho, hm⟩
    · exact Or.inl hleft
    · refine Or.inr ⟨ho, ?_⟩
      rw [← h2]
      cases made with
      | true => exact List.mem_append.mpr (Or.inl hm)
      | false => exact hm

/-- Witness for C7: a forced-free successful backup of server a with
zero players observed, driving the flag from true to false. -/
theorem c7_flag_false_only_after_backup_witness :
    lookupBkp [("a", true)] "a" = some false ∨
      ("a" = "a" ∧ true = true ∧ false = false ∧
        ((some 0 : Option Nat).getD 0 = 0) ∧
        Effect.upload "a" ∈
          [Effect.notify "a" "Creating backup...", Effect.forceSave "a",
            Effect.archive "a", Effect.upload "a", Effect.notify "a" "Backup created"]) :=
  c7_flag_false_only_after_backup.1
    ⟨fun _ => some 0, fun _ => true, fun _ => true, fun _ => true, fun _ => true⟩
    false "a" ⟨[("a", ⟨"a", true, 25565, 0, false⟩)], [("a", true)]⟩
    ⟨[("a", ⟨"a", true, 25565, 0, false⟩)], [("a", false)]⟩
    [Effect.notify "a" "Creating backup...", Effect.forceSave "a",
      Effect.archive "a", Effect.upload "a", Effect.notify "a" "Backup created"]
    true false (by decide) "a" (by decide)

/-- C8: the handleStatus cycle below observes server a coming online
with its eligibility flag false and server b online with its flag
already true; the flag of a actually changes value to true, but because
the changed accumulator is overwritten per server (changed equals not
previous rather than changed or not previous), the cycle performs no
persist, contradicting the persist-iff-some-flag-changed claim. -/
theorem c8_handleStatus_missed_persist :
    (handleStatus
        ⟨fun _ => some 1, fun _ => true, fun _ => true, fun _ => true, fun _ => true⟩
        ["a", "b"]
        ⟨[("a", ⟨"a", true, 25565, 0, false⟩), ("b", ⟨"b", true, 25566, 0, false⟩)],
          [("a", false), ("b", true)]⟩).2 = false ∧
    lookupBkp (handleStatus
        ⟨fun _ => some 1, fun _ => true, fun _ => true, fun _ => true, fun _ => true⟩
        ["a", "b"]
        ⟨[("a", ⟨"a", true, 25565, 0, false⟩), ("b", ⟨"b", true, 25566, 0, false⟩)],
          [("a", false), ("b", true)]⟩).1.backups "a" = some true ∧
    lookupBkp [("a", false), ("b", true)] "a" = some false := by
  decide

/-- C9: a request buffer that reads successfully but splits into no
fields (empty or all-whitespace), or into the single field server,
makes handleMessage panic on an out-of-range index, so no structured
response is produced for it; well-formed and unknown commands do get
exactly one response. -/
theorem c9_monitor_dispatch_panics :
    respondToRequest ⟨none, none, none⟩ "" = none ∧
    respondToRequest ⟨none, none, none⟩ "   " = none ∧
    respondToRequest ⟨none, none, none⟩ "server" = none ∧
    respondToRequest ⟨none, none, none⟩ "badcmd" =
      some ⟨103, "Failed to execute command: unknown request: badcmd"⟩ ∧
    respondToRequest ⟨none, none, none⟩ "server start alpha" =
      some ⟨0, "Started servers alpha"⟩ := by
  decide

/-- C10: WriteBackupStatus on a nil or empty in-memory map returns
without writing and leaves the persisted backup lock file unchanged, so
a previously persisted non-empty state is never overwritten by an empty
map; a nonempty map is written wholesale. -/
theorem c10_writeBackupStatus_empty_guard :
    (∀ file : Option BackupMap, WriteBackupStatus [] file = (file, false)) ∧
    (∀ (k : String) (b : Bool) (m : BackupMap) (file : Option BackupMap),
      WriteBackupStatus ((k, b) :: m) file = (some ((k, b) :: m), true)) :=
  ⟨fun _ => rfl, fun _ _ _ _ => rfl⟩

end MSM
